import Mathlib

/-!
Verification development for the session/cache subsystem of the trade-sdk
repository (Rust). The relevant modules are shallowly embedded:

* `src/caches/mod.rs` — the generic `ClientsCache` trait: a map from keys to
  `(Arc<C>, Instant)` pairs plus a configurable `Duration` lifetime, with
  `configure`, `get`, `add`, `get_or_create`, `cleanup_expired`, `size`,
  `clear`.
* `src/cache.rs` — the legacy `BybitClientCache` module, whose `get`
  deliberately does not check expiration (its own comment: expiration is
  handled by background cleanup only).
* `src/caches/bybit.rs` / `src/caches/bingx.rs` — the per-exchange
  instantiations with their `make_key` helpers and fallible
  `get_or_create` wrappers.
* `src/session.rs` — `SharedSessionManager` with `setup`, `is_initialized`,
  `get_client`, `close`, `max_connections`.

Modelling conventions: `Instant` and `Duration` become `Nat` (abstract time
units; the code works at second granularity). `HashMap<K, V>` becomes an
association list with at-most-one entry per key, maintained by an
overwriting insert. A value of the cached client type `C` models the
`Arc<C>` pointer itself, so equality of `C` values is pointer identity:
`Arc::clone` yields the same value. Rust panics and fallible constructors
become `Except`. Lock poisoning is not modelled (locks are only ever taken
and released inside each operation; in the sequential embedding every lock
acquisition succeeds). The constructors `BybitClient::new` /
`BingxClient::new` build a reqwest-backed HTTP client and may fail for
I/O-configuration reasons, so the per-exchange `get_or_create` embeddings
take the constructor as a function parameter with the exact argument
signature of the source constructor.
-/

/-- Lookup in the association-list model of `HashMap`: the value stored at
`k`, if any. Mirrors `HashMap::get`. -/
def mapFind {K V : Type} [DecidableEq K] (m : List (K × V)) (k : K) : Option V :=
  (m.find? (fun e => decide (e.1 = k))).map (fun e => e.2)

/-- Overwriting insert in the association-list model of `HashMap`:
removes any previous binding of `k` and binds `k` to `v`. Mirrors
`HashMap::insert` (which replaces an existing value for the key). -/
def mapInsert {K V : Type} [DecidableEq K] (m : List (K × V)) (k : K) (v : V) :
    List (K × V) :=
  (k, v) :: m.filter (fun e => !decide (e.1 = k))

/-- State of one generic client cache (`src/caches/mod.rs`): the
`RwLock<HashMap<K, (Arc<C>, Instant)>>` map and the `RwLock<Duration>`
lifetime, taken together. -/
structure CacheState (K C : Type) where
  map : List (K × C × Nat)
  lifetime : Nat
  deriving Repr

/-- `ClientsCache::configure` (`src/caches/mod.rs` lines 34-36): overwrite
the process-wide lifetime with `Duration::from_secs(lifetime_seconds)`. -/
def ClientsCache.configure {K C : Type} (lifetime_seconds : Nat)
    (s : CacheState K C) : CacheState K C :=
  { s with lifetime := lifetime_seconds }

/-- `ClientsCache::get` (`src/caches/mod.rs` lines 38-44): look the key up
under a read lock, keep the entry only if its expiry is strictly greater
than `Instant::now()`, and return a clone of the stored `Arc`. -/
def ClientsCache.get {K C : Type} [DecidableEq K] (now : Nat) (k : K)
    (s : CacheState K C) : Option C :=
  (mapFind s.map k).bind (fun ce => if now < ce.2 then some ce.1 else none)

/-- State-passing form of `ClientsCache::get`: the source acquires only a
read lock and performs no write, so the state component of the result is
the input state unchanged. -/
def ClientsCache.getST {K C : Type} [DecidableEq K] (now : Nat) (k : K)
    (s : CacheState K C) : Option C × CacheState K C :=
  (ClientsCache.get now k s, s)

/-- `ClientsCache::add` (`src/caches/mod.rs` lines 46-54): compute
`Instant::now() + lifetime`, then insert (overwriting) under a write
lock. -/
def ClientsCache.add {K C : Type} [DecidableEq K] (now : Nat) (k : K)
    (client : C) (s : CacheState K C) : CacheState K C :=
  { s with map := mapInsert s.map k (client, now + s.lifetime) }

/-- `ClientsCache::get_or_create` (`src/caches/mod.rs` lines 56-69): return
a hit from `get`; otherwise invoke the caller-supplied `create` closure,
`add` the result, and return it. -/
def ClientsCache.get_or_create {K C : Type} [DecidableEq K] (now : Nat)
    (k : K) (create : Unit → C) (s : CacheState K C) : C × CacheState K C :=
  match ClientsCache.get now k s with
  | some c => (c, s)
  | none =>
    let client := create ()
    (client, ClientsCache.add now k client s)

/-- `ClientsCache::cleanup_expired` (`src/caches/mod.rs` lines 73-82):
under a write lock, retain exactly the entries whose expiry is strictly
greater than `now`, and return how many entries this removed (initial
length minus remaining length). -/
def ClientsCache.cleanup_expired {K C : Type} [DecidableEq K] (now : Nat)
    (s : CacheState K C) : Nat × CacheState K C :=
  let retained := s.map.filter (fun e => decide (now < e.2.2))
  (s.map.length - retained.length, { s with map := retained })

/-- `ClientsCache::size` (`src/caches/mod.rs` lines 85-87): length of the
map. -/
def ClientsCache.size {K C : Type} (s : CacheState K C) : Nat :=
  s.map.length

/-- `ClientsCache::clear` (`src/caches/mod.rs` lines 90-94): empty the map
unconditionally. -/
def ClientsCache.clear {K C : Type} (s : CacheState K C) : CacheState K C :=
  { s with map := [] }

/-- Model of `Arc<BybitClient>` for the legacy cache module: the pointer
identity of the heap allocation. `Arc::clone` preserves it. -/
structure ArcClient where
  ptr : Nat
  deriving DecidableEq, Repr

/-- `CacheKey` of the legacy module `src/cache.rs` line 11:
`(api_key, api_secret, demo, testnet)`. -/
abbrev LegacyCacheKey := String × String × Bool × Bool

/-- State of the legacy `BybitClientCache` module (`src/cache.rs`): the
`CLIENT_CACHE` map and the `CACHE_LIFETIME` duration (default 600 s). -/
structure LegacyCacheState where
  map : List (LegacyCacheKey × ArcClient × Nat)
  lifetime : Nat
  deriving Repr

/-- `BybitClientCache::get` (`src/cache.rs` lines 27-41): build the key
`(api_key, api_secret, demo, testnet)`, look it up under a read lock, and
return a clone of the stored `Arc` whenever the entry is present. The
source comment states explicitly that this function does not check
expiration (that is left to background cleanup), so the stored expiry is
ignored. -/
def BybitClientCache.get (api_key api_secret : String) (demo testnet : Bool)
    (s : LegacyCacheState) : Option ArcClient :=
  (mapFind s.map (api_key, api_secret, demo, testnet)).map (fun e => e.1)

/-- `BybitClientCache::cleanup_expired` (`src/cache.rs` lines 89-98): same
retain-strictly-future logic as the generic trait, returning initial
length minus remaining length. -/
def BybitClientCache.cleanup_expired (now : Nat) (s : LegacyCacheState) :
    Nat × LegacyCacheState :=
  let retained := s.map.filter (fun e => decide (now < e.2.2))
  (s.map.length - retained.length, { s with map := retained })

/-- `BybitCacheKey` (`src/caches/bybit.rs` line 12):
`(api_key, api_secret, demo, testnet)`. -/
abbrev BybitCacheKey := String × String × Bool × Bool

/-- `make_key` of `src/caches/bybit.rs` lines 48-55: parameters arrive in
the order `(api_key, api_secret, testnet, demo)` and are packed into the
tuple `(api_key, api_secret, demo, testnet)`. -/
def BybitClientsCache.make_key (api_key api_secret : String)
    (testnet demo : Bool) : BybitCacheKey :=
  (api_key, api_secret, demo, testnet)

/-- `BybitClientsCache::get_or_create` (`src/caches/bybit.rs` lines 69-93):
build the key, return a cache hit if `get` finds one, otherwise call
`BybitClient::new(Some(key.0), Some(key.1), testnet, demo, 5000, None)`,
propagate its error with `?` (which leaves the cache untouched), and on
success `add` the new client and return it. The constructor is passed in
as `new` with the argument signature of `BybitClient::new`
(`src/client.rs`): api_key, api_secret, testnet, demo, recv_window,
referral_id. -/
def BybitClientsCache.get_or_create {E C : Type}
    (new : Option String → Option String → Bool → Bool → Nat → Option String → Except E C)
    (now : Nat) (api_key api_secret : String) (testnet demo : Bool)
    (s : CacheState BybitCacheKey C) : Except E C × CacheState BybitCacheKey C :=
  let key := BybitClientsCache.make_key api_key api_secret testnet demo
  match ClientsCache.get now key s with
  | some client => (Except.ok client, s)
  | none =>
    match new (some key.1) (some key.2.1) testnet demo 5000 none with
    | Except.error e => (Except.error e, s)
    | Except.ok client => (Except.ok client, ClientsCache.add now key client s)

/-- `BingxCacheKey` (`src/caches/bingx.rs` line 12):
`(api_key, api_secret, demo, testnet)`. -/
abbrev BingxCacheKey := String × String × Bool × Bool

/-- `make_key` of `src/caches/bingx.rs` lines 48-55: parameters arrive in
the order `(api_key, api_secret, testnet, demo)` and are packed into the
tuple `(api_key, api_secret, demo, testnet)`. -/
def BingxClientsCache.make_key (api_key api_secret : String)
    (testnet demo : Bool) : BingxCacheKey :=
  (api_key, api_secret, demo, testnet)

/-- `BingxClientsCache::get_or_create` (`src/caches/bingx.rs` lines 69-91):
build the key (which includes `testnet`), return a cache hit if `get`
finds one, otherwise call
`BingxClient::new(Some(key.0), Some(key.1), demo, 5000)` — note that
`testnet` is not among the constructor arguments
(`src/clients/bingx/mod.rs` lines 21-30) — propagate its error with `?`,
and on success `add` the new client and return it. -/
def BingxClientsCache.get_or_create {E C : Type}
    (new : Option String → Option String → Bool → Nat → Except E C)
    (now : Nat) (api_key api_secret : String) (testnet demo : Bool)
    (s : CacheState BingxCacheKey C) : Except E C × CacheState BingxCacheKey C :=
  let key := BingxClientsCache.make_key api_key api_secret testnet demo
  match ClientsCache.get now key s with
  | some client => (Except.ok client, s)
  | none =>
    match new (some key.1) (some key.2.1) demo 5000 with
    | Except.error e => (Except.error e, s)
    | Except.ok client => (Except.ok client, ClientsCache.add now key client s)

/-- Configuration of the pooled reqwest client built by
`SharedSessionManager::setup` (`src/session.rs` lines 47-68). The client
is never mutated after construction, so it is modelled by its
configuration record. -/
structure HttpClient where
  pool_max_idle_per_host : Nat
  pool_idle_timeout_secs : Nat
  tcp_keepalive_secs : Nat
  tcp_nodelay : Bool
  timeout_secs : Nat
  http1_only : Bool
  user_agent : String
  default_headers : List (String × String)
  deriving DecidableEq, Repr

/-- The client built by `setup(max_connections)` (`src/session.rs` lines
47-68): per-host idle cap `max_connections / 2`, 60 s idle timeout, 60 s
TCP keep-alive, TCP no-delay, 30 s request timeout, HTTP/1.1 only, fixed
user agent and default headers. -/
def buildSharedClient (max_connections : Nat) : HttpClient :=
  { pool_max_idle_per_host := max_connections / 2
    pool_idle_timeout_secs := 60
    tcp_keepalive_secs := 60
    tcp_nodelay := true
    timeout_secs := 30
    http1_only := true
    user_agent := "trade-sdk/0.1.0"
    default_headers :=
      [("Content-Type", "application/json"),
       ("Accept", "application/json"),
       ("Connection", "keep-alive")] }

/-- Process-wide state of `src/session.rs`: the
`SHARED_SESSION_MANAGER` optional holding `(client, max_connections)` and
the `SESSION_INITIALIZED` atomic flag. -/
structure SessionState where
  manager : Option (HttpClient × Nat)
  initialized : Bool
  deriving DecidableEq, Repr

/-- Process-start state: `SHARED_SESSION_MANAGER` is `None`,
`SESSION_INITIALIZED` is `false` (`src/session.rs` lines 9-10). -/
def SessionState.initial : SessionState :=
  { manager := none, initialized := false }

/-- `SharedSessionManager::setup` (`src/session.rs` lines 27-79): return
early if the atomic flag is set; re-check the stored optional under the
write lock and return early if it is already `Some`; otherwise build the
pooled client, store it together with `max_connections`, and set the
flag. -/
def SharedSessionManager.setup (max_connections : Nat) (s : SessionState) :
    SessionState :=
  if s.initialized then s
  else if s.manager.isSome then s
  else
    { manager := some (buildSharedClient max_connections, max_connections)
      initialized := true }

/-- `SharedSessionManager::is_initialized` (`src/session.rs` lines 83-85):
atomic read of the flag. -/
def SharedSessionManager.is_initialized (s : SessionState) : Bool :=
  s.initialized

/-- `SharedSessionManager::get_client` (`src/session.rs` lines 89-110):
panics with the not-initialized message when the flag is unset; otherwise
reads the stored optional and returns a clone of the pooled client;
should the optional be empty it panics through the `expect` on the
fallback path. Panics are modelled as `Except.error`. -/
def SharedSessionManager.get_client (s : SessionState) :
    Except String HttpClient :=
  if !s.initialized then
    Except.error "Session not initialized. Call SessionManager::setup() first."
  else
    match s.manager with
    | some session => Except.ok session.1
    | none =>
        Except.error "Session not initialized. Call SessionManager::setup() first."

/-- `SharedSessionManager::close` (`src/session.rs` lines 114-132): swap
the flag to `false`; if it was already `false` return unchanged, else take
the stored optional out (the advisory 200 ms sleep has no effect on the
state). -/
def SharedSessionManager.close (s : SessionState) : SessionState :=
  if !s.initialized then s
  else { manager := none, initialized := false }

/-- `SharedSessionManager::max_connections` (`src/session.rs` lines
135-142): the stored value, or 0 when nothing is stored. -/
def SharedSessionManager.max_connections (s : SessionState) : Nat :=
  match s.manager with
  | some session => session.2
  | none => 0

/-- Session states reachable from process start through the public
lifecycle operations of `src/session.rs`. -/
inductive SessionReachable : SessionState → Prop
  | start : SessionReachable SessionState.initial
  | setup (n : Nat) (s : SessionState) :
      SessionReachable s → SessionReachable (SharedSessionManager.setup n s)
  | close (s : SessionState) :
      SessionReachable s → SessionReachable (SharedSessionManager.close s)

/-- Concrete client handle used by the C1 counterexample. -/
def c1Client : ArcClient := ⟨42⟩

/-- Concrete legacy-cache state for the C1 counterexample: one entry under
key `("k", "s", false, false)` whose stored expiry instant is 5. -/
def c1State : LegacyCacheState :=
  { map := [(("k", "s", false, false), c1Client, 5)], lifetime := 600 }

/-- Overwriting insert stores the given value at the given key. -/
theorem mapFind_mapInsert_self {K V : Type} [DecidableEq K]
    (m : List (K × V)) (k : K) (v : V) :
    mapFind (mapInsert m k v) k = some v := by
  simp [mapFind, mapInsert, List.find?]

/-- Overwriting insert leaves lookups at every other key unchanged. -/
theorem mapFind_mapInsert_ne {K V : Type} [DecidableEq K]
    (m : List (K × V)) (k k' : K) (v : V) (h : k' ≠ k) :
    mapFind (mapInsert m k v) k' = mapFind m k' := by
  simp only [mapFind, mapInsert]
  have hhead : ¬ ((k, v).1 = k') := fun hk => h hk.symm
  rw [List.find?_cons_of_neg _ (by simpa using hhead)]
  congr 1
  induction m with
  | nil => rfl
  | cons a m ih =>
    by_cases ha : a.1 = k
    · have ha' : ¬ (a.1 = k') := by
        rw [ha]; exact fun hk => h hk.symm
      rw [List.filter_cons_of_neg (by simpa using ha),
        List.find?_cons_of_neg _ (by simpa using ha')]
      exact ih
    · rw [List.filter_cons_of_pos (by simpa using ha)]
      by_cases hk' : a.1 = k'
      · rw [List.find?_cons_of_pos _ (by simpa using hk'),
          List.find?_cons_of_pos _ (by simpa using hk')]
      · rw [List.find?_cons_of_neg _ (by simpa using hk'),
          List.find?_cons_of_neg _ (by simpa using hk')]
        exact ih

/-- Splitting a list of timestamped entries at a deadline: the entries
whose timestamp is strictly in the future plus the count of entries whose
timestamp is at or before the deadline account for the whole list. -/
theorem filter_length_split {α : Type} (now : Nat) (f : α → Nat)
    (l : List α) :
    (l.filter (fun e => decide (now < f e))).length
      + l.countP (fun e => decide (f e ≤ now)) = l.length := by
  induction l with
  | nil => rfl
  | cons a l ih =>
    by_cases h : now < f a
    · rw [List.filter_cons_of_pos (by simpa using h)]
      have hnot : ¬ (f a ≤ now) := Nat.not_le.mpr h
      simp [hnot]
      omega
    · rw [List.filter_cons_of_neg (by simpa using h)]
      have hle : f a ≤ now := Nat.not_lt.mp h
      simp [hle]
      omega

/-- C2: calling `setup(N)` and then `setup(M)` from the process-start
state performs exactly one initialization — the first call stores the
client built from `N` together with `N`, the second call returns the
state of the first call unchanged, and `max_connections()` afterwards is
`N`, not `M`. -/
theorem setup_twice_single_init (N M : Nat) :
    SharedSessionManager.setup N SessionState.initial =
      { manager := some (buildSharedClient N, N), initialized := true } ∧
    SharedSessionManager.setup M (SharedSessionManager.setup N SessionState.initial) =
      SharedSessionManager.setup N SessionState.initial ∧
    SharedSessionManager.max_connections
      (SharedSessionManager.setup M (SharedSessionManager.setup N SessionState.initial)) = N := by
  have h1 : SharedSessionManager.setup N SessionState.initial =
      { manager := some (buildSharedClient N, N), initialized := true } := by
    simp [SharedSessionManager.setup, SessionState.initial]
  have h2 : SharedSessionManager.setup M (SharedSessionManager.setup N SessionState.initial) =
      SharedSessionManager.setup N SessionState.initial := by
    rw [h1]; simp [SharedSessionManager.setup]
  refine ⟨h1, h2, ?_⟩
  rw [h2, h1]
  simp [SharedSessionManager.max_connections]

/-- Claim C9 counterexample: the two per-exchange cache key shapes do not
differ — the key type aliases are the same type, a concrete Bybit key and
the Bingx key built from the same inputs are equal, and both carry the
testnet flag as their fourth field. -/
theorem key_shapes_identical_cex :
    BybitCacheKey = BingxCacheKey ∧
    BybitClientsCache.make_key "a" "b" true false =
      BingxClientsCache.make_key "a" "b" true false ∧
    (BybitClientsCache.make_key "a" "b" true false).2.2.2 = true ∧
    (BingxClientsCache.make_key "a" "b" true false).2.2.2 = true :=
  ⟨rfl, rfl, rfl, rfl⟩

/-- C9 (amended): the two per-exchange cache key shapes are identical —
both are `(api_key, api_secret, demo, testnet)` four-tuples, built
identically by the two `make_key` helpers, and both carry the testnet
flag (the exchanges differ in their client constructors, not in their
cache keys). -/
theorem key_shapes_identical (ak as : String) (t d : Bool) :
    BybitCacheKey = BingxCacheKey ∧
    BybitClientsCache.make_key ak as t d = BingxClientsCache.make_key ak as t d ∧
    (BybitClientsCache.make_key ak as t d).2.2.2 = t ∧
    (BingxClientsCache.make_key ak as t d).2.2.2 = t :=
  ⟨rfl, rfl, rfl, rfl⟩

/-- C4: on a cache holding `N` entries of which `M` have expiry instants
not strictly greater than `now`, `cleanup_expired` returns exactly `M`,
retains exactly the entries with strictly-future expiry, and `size`
afterwards is `N − M`; the legacy `BybitClientCache::cleanup_expired`
behaves identically. -/
theorem cleanup_expired_exact {K C : Type} [DecidableEq K] (now : Nat)
    (s : CacheState K C) (ls : LegacyCacheState) :
    (ClientsCache.cleanup_expired now s).1 =
      s.map.countP (fun e => decide (e.2.2 ≤ now)) ∧
    (ClientsCache.cleanup_expired now s).2.map =
      s.map.filter (fun e => decide (now < e.2.2)) ∧
    ClientsCache.size (ClientsCache.cleanup_expired now s).2 =
      ClientsCache.size s - s.map.countP (fun e => decide (e.2.2 ≤ now)) ∧
    (BybitClientCache.cleanup_expired now ls).1 =
      ls.map.countP (fun e => decide (e.2.2 ≤ now)) ∧
    (BybitClientCache.cleanup_expired now ls).2.map.length =
      ls.map.length - ls.map.countP (fun e => decide (e.2.2 ≤ now)) := by
  have hgen := filter_length_split now (fun e => e.2.2) s.map
  have hleg := filter_length_split now (fun e => e.2.2) ls.map
  have hlen := List.length_filter_le (fun e => decide (now < e.2.2)) s.map
  have hlenl := List.length_filter_le (fun e => decide (now < e.2.2)) ls.map
  refine ⟨?_, rfl, ?_, ?_, ?_⟩
  · simp only [ClientsCache.cleanup_expired]
    omega
  · simp only [ClientsCache.cleanup_expired, ClientsCache.size]
    omega
  · simp only [BybitClientCache.cleanup_expired]
    omega
  · simp only [BybitClientCache.cleanup_expired]
    omega

/-- Along every lifecycle of `src/session.rs` (setup and close from the
process-start state), the atomic initialized flag agrees with the stored
optional holding the pooled client. -/
theorem reachable_flag_matches_manager (s : SessionState)
    (h : SessionReachable s) : s.initialized = s.manager.isSome := by
  induction h with
  | start => rfl
  | setup n s hs ih =>
    unfold SharedSessionManager.setup
    by_cases hi : s.initialized = true
    · rw [if_pos hi]; exact ih
    · rw [if_neg hi]
      by_cases hm : s.manager.isSome = true
      · rw [if_pos hm]; exact ih
      · rw [if_neg hm]; rfl
  | close s hs ih =>
    by_cases hi : s.initialized = true
    · simp [SharedSessionManager.close, hi]
    · simp only [Bool.not_eq_true] at hi
      have hclose : SharedSessionManager.close s = s := by
        simp [SharedSessionManager.close, hi]
      rw [hclose]
      exact ih

/-- C3: on every reachable session state, `get_client` has exactly two
outcomes — it fails with the not-initialized panic whenever
`is_initialized` is false, and whenever `is_initialized` is true it
returns the one pooled client stored by `setup` (a cheap `Arc` clone of
the stored handle). -/
theorem get_client_two_outcomes (s : SessionState) (h : SessionReachable s) :
    (SharedSessionManager.is_initialized s = false →
      SharedSessionManager.get_client s =
        Except.error "Session not initialized. Call SessionManager::setup() first.") ∧
    (SharedSessionManager.is_initialized s = true →
      ∃ client mc, s.manager = some (client, mc) ∧
        SharedSessionManager.get_client s = Except.ok client) := by
  have hinv := reachable_flag_matches_manager s h
  constructor
  · intro hf
    rw [SharedSessionManager.is_initialized] at hf
    simp [SharedSessionManager.get_client, hf]
  · intro ht
    rw [SharedSessionManager.is_initialized] at ht
    rw [ht] at hinv
    cases hm : s.manager with
    | none => rw [hm] at hinv; simp at hinv
    | some p =>
      rcases p with ⟨client, mc⟩
      refine ⟨client, mc, rfl, ?_⟩
      simp [SharedSessionManager.get_client, ht, hm]

/-- Claim C3 witness: the theorem applied to the reachable state obtained
by one `setup(100)` from process start. -/
theorem get_client_two_outcomes_witness :
    (SharedSessionManager.is_initialized
        (SharedSessionManager.setup 100 SessionState.initial) = false →
      SharedSessionManager.get_client
          (SharedSessionManager.setup 100 SessionState.initial) =
        Except.error "Session not initialized. Call SessionManager::setup() first.") ∧
    (SharedSessionManager.is_initialized
        (SharedSessionManager.setup 100 SessionState.initial) = true →
      ∃ client mc,
        (SharedSessionManager.setup 100 SessionState.initial).manager =
          some (client, mc) ∧
        SharedSessionManager.get_client
            (SharedSessionManager.setup 100 SessionState.initial) =
          Except.ok client) :=
  get_client_two_outcomes _ (SessionReachable.setup 100 _ SessionReachable.start)

/-- Claim C1 counterexample: the single entry of `c1State` was stored with
expiry instant 5, which at time 10 is not strictly in the future, yet the
legacy `BybitClientCache::get` of `src/cache.rs` still returns the
handle — a present-but-expired entry is not treated as a miss by this
`get`. -/
theorem legacy_get_returns_expired_entry_cex :
    BybitClientCache.get "k" "s" false false c1State = some c1Client ∧
    ¬ (10 : Nat) < 5 := by
  constructor
  · rfl
  · decide

/-- C1 (amended): for the generic `ClientsCache` of `src/caches/mod.rs`,
`get` returns a cloned shared handle exactly when an entry for the key is
present with stored expiry strictly in the future, so a present-but-expired
entry is a miss even if `cleanup_expired` has never been called; the
legacy `BybitClientCache::get` of `src/cache.rs`, by contrast, returns
every present entry regardless of its stored expiry. -/
theorem clientsCache_get_expiry_iff {K C : Type} [DecidableEq K]
    (s : CacheState K C) (now : Nat) (k : K) (c : C)
    (legacy : LegacyCacheState) (ak as : String) (d t : Bool)
    (lc : ArcClient) (lexp : Nat)
    (hleg : mapFind legacy.map (ak, as, d, t) = some (lc, lexp)) :
    (ClientsCache.get now k s = some c ↔
      ∃ exp, mapFind s.map k = some (c, exp) ∧ now < exp) ∧
    BybitClientCache.get ak as d t legacy = some lc := by
  constructor
  · constructor
    · intro h
      unfold ClientsCache.get at h
      cases hf : mapFind s.map k with
      | none =>
        rw [hf] at h
        simp at h
      | some ce =>
        rcases ce with ⟨cv, ev⟩
        rw [hf] at h
        by_cases hlt : now < ev
        · have hcv : cv = c := by
            have hh : (if now < ev then some cv else none) = some c := h
            rw [if_pos hlt] at hh
            exact Option.some.inj hh
          exact ⟨ev, by rw [hcv], hlt⟩
        · have hh : (if now < ev then some cv else none) = some c := h
          rw [if_neg hlt] at hh
          cases hh
    · rintro ⟨exp, hfind, hlt⟩
      unfold ClientsCache.get
      rw [hfind]
      show (if now < exp then some c else none) = some c
      rw [if_pos hlt]
  · simp [BybitClientCache.get, hleg]

/-- Claim C1 witness: the amended theorem applied to an empty generic
cache over `Nat` keys and clients, and to the legacy state `c1State`. -/
theorem clientsCache_get_expiry_iff_witness :
    (ClientsCache.get 0 0 ({ map := [], lifetime := 600 } : CacheState Nat Nat) =
        some 7 ↔
      ∃ exp, mapFind ({ map := [], lifetime := 600 } : CacheState Nat Nat).map 0 =
          some (7, exp) ∧ 0 < exp) ∧
    BybitClientCache.get "k" "s" false false c1State = some c1Client :=
  clientsCache_get_expiry_iff _ 0 0 7 c1State "k" "s" false false c1Client 5
    (by decide)

/-- C5: when the underlying client constructor fails on a cache miss, the
per-exchange `get_or_create` wrappers of `src/caches/bybit.rs` and
`src/caches/bingx.rs` return exactly that construction error, unchanged,
and leave the cache state exactly as it was — no entry is inserted or
modified. -/
theorem get_or_create_propagates_ctor_error {E C : Type}
    (newB : Option String → Option String → Bool → Bool → Nat → Option String → Except E C)
    (newG : Option String → Option String → Bool → Nat → Except E C)
    (now : Nat) (ak as : String) (t d : Bool) (eB eG : E)
    (sB : CacheState BybitCacheKey C) (sG : CacheState BingxCacheKey C)
    (hmB : ClientsCache.get now (BybitClientsCache.make_key ak as t d) sB = none)
    (hfB : newB (some ak) (some as) t d 5000 none = Except.error eB)
    (hmG : ClientsCache.get now (BingxClientsCache.make_key ak as t d) sG = none)
    (hfG : newG (some ak) (some as) d 5000 = Except.error eG) :
    BybitClientsCache.get_or_create newB now ak as t d sB = (Except.error eB, sB) ∧
    BingxClientsCache.get_or_create newG now ak as t d sG = (Except.error eG, sG) := by
  have hmB' : ClientsCache.get now ((ak, as, d, t) : BybitCacheKey) sB = none := hmB
  have hmG' : ClientsCache.get now ((ak, as, d, t) : BingxCacheKey) sG = none := hmG
  constructor
  · simp [BybitClientsCache.get_or_create, BybitClientsCache.make_key, hmB', hfB]
  · simp [BingxClientsCache.get_or_create, BingxClientsCache.make_key, hmG', hfG]

/-- Claim C5 witness: both wrappers applied to an empty cache with a
constructor that always fails with the error string "bad config". -/
theorem get_or_create_propagates_ctor_error_witness :
    BybitClientsCache.get_or_create
        (fun _ _ _ _ _ _ => (Except.error "bad config" : Except String Nat))
        0 "a" "b" true false { map := [], lifetime := 600 } =
      (Except.error "bad config", { map := [], lifetime := 600 }) ∧
    BingxClientsCache.get_or_create
        (fun _ _ _ _ => (Except.error "bad config" : Except String Nat))
        0 "a" "b" true false { map := [], lifetime := 600 } =
      (Except.error "bad config", { map := [], lifetime := 600 }) :=
  get_or_create_propagates_ctor_error _ _ 0 "a" "b" true false
    "bad config" "bad config" _ _ rfl rfl rfl rfl

/-- C6: `configure` changes only the process-wide lifetime — the map, and
with it every stored client handle and every already-computed absolute
expiry instant, is unchanged — while an `add` performed after the call
stores its entry with expiry `now` plus the new lifetime. -/
theorem configure_affects_only_future_adds {K C : Type} [DecidableEq K]
    (s : CacheState K C) (secs now : Nat) (k : K) (c : C) :
    (ClientsCache.configure secs s).map = s.map ∧
    (ClientsCache.configure secs s).lifetime = secs ∧
    mapFind (ClientsCache.add now k c (ClientsCache.configure secs s)).map k =
      some (c, now + secs) := by
  refine ⟨rfl, rfl, ?_⟩
  simp [ClientsCache.add, ClientsCache.configure, mapFind_mapInsert_self]

/-- C7: `get` never mutates the cache map — in the state-passing embedding
the state after any lookup is the state before, `size` is unchanged — and
a present-but-expired entry yields a miss while still occupying its map
slot. -/
theorem get_is_read_only {K C : Type} [DecidableEq K]
    (s : CacheState K C) (now : Nat) (k k' : K) (c : C) (exp : Nat)
    (hfind : mapFind s.map k = some (c, exp)) (hexp : exp ≤ now) :
    (ClientsCache.getST now k' s).2 = s ∧
    ClientsCache.size (ClientsCache.getST now k' s).2 = ClientsCache.size s ∧
    ClientsCache.get now k s = none ∧
    mapFind ((ClientsCache.getST now k s).2).map k = some (c, exp) := by
  refine ⟨rfl, rfl, ?_, hfind⟩
  unfold ClientsCache.get
  rw [hfind]
  show (if now < exp then some c else none) = none
  rw [if_neg (Nat.not_lt.mpr hexp)]

/-- Claim C7 witness: a one-entry cache over `Nat` keys and clients whose
entry (key 1, client 9) expired at instant 5, observed at instant 10. -/
theorem get_is_read_only_witness :
    (ClientsCache.getST 10 2 ({ map := [(1, 9, 5)], lifetime := 600 } : CacheState Nat Nat)).2 =
      { map := [(1, 9, 5)], lifetime := 600 } ∧
    ClientsCache.size
        (ClientsCache.getST 10 2 ({ map := [(1, 9, 5)], lifetime := 600 } : CacheState Nat Nat)).2 =
      ClientsCache.size ({ map := [(1, 9, 5)], lifetime := 600 } : CacheState Nat Nat) ∧
    ClientsCache.get 10 1 ({ map := [(1, 9, 5)], lifetime := 600 } : CacheState Nat Nat) = none ∧
    mapFind ((ClientsCache.getST 10 1 ({ map := [(1, 9, 5)], lifetime := 600 } : CacheState Nat Nat)).2).map 1 =
      some (9, 5) :=
  get_is_read_only { map := [(1, 9, 5)], lifetime := 600 } 10 1 2 9 5
    (by decide) (by decide)

/-- C8: for a key with no entry in the map and a positive configured
lifetime, `get` misses; the client returned by `get_or_create` is exactly
the object built by the `create` closure, and an immediate `get` on the
resulting state returns that very same handle (pointer identity in the
`Arc` model). -/
theorem cache_hit_after_create {K C : Type} [DecidableEq K]
    (s : CacheState K C) (now : Nat) (k : K) (create : Unit → C)
    (hfresh : mapFind s.map k = none) (hpos : 0 < s.lifetime) :
    ClientsCache.get now k s = none ∧
    (ClientsCache.get_or_create now k create s).1 = create () ∧
    ClientsCache.get now k (ClientsCache.get_or_create now k create s).2 =
      some (ClientsCache.get_or_create now k create s).1 := by
  have hmiss : ClientsCache.get now k s = none := by
    unfold ClientsCache.get
    rw [hfresh]
    rfl
  have hgoc : ClientsCache.get_or_create now k create s =
      (create (), ClientsCache.add now k (create ()) s) := by
    unfold ClientsCache.get_or_create
    rw [hmiss]
  refine ⟨hmiss, by rw [hgoc], ?_⟩
  rw [hgoc]
  unfold ClientsCache.get ClientsCache.add
  simp only [mapFind_mapInsert_self]
  show (if now < now + s.lifetime then some (create ()) else none) = some (create ())
  rw [if_pos (Nat.lt_add_of_pos_right hpos)]

/-- Claim C8 witness: key 0 on an empty cache over `Nat` keys and clients
with the default 600-unit lifetime and a closure building client 42. -/
theorem cache_hit_after_create_witness :
    ClientsCache.get 0 0 ({ map := [], lifetime := 600 } : CacheState Nat Nat) = none ∧
    (ClientsCache.get_or_create 0 0 (fun _ => 42)
        ({ map := [], lifetime := 600 } : CacheState Nat Nat)).1 = (fun _ => 42) () ∧
    ClientsCache.get 0 0
        (ClientsCache.get_or_create 0 0 (fun _ => 42)
          ({ map := [], lifetime := 600 } : CacheState Nat Nat)).2 =
      some ((ClientsCache.get_or_create 0 0 (fun _ => 42)
        ({ map := [], lifetime := 600 } : CacheState Nat Nat)).1) :=
  cache_hit_after_create { map := [], lifetime := 600 } 0 0 (fun _ => 42)
    rfl (by decide)

/-- C10: `BingxClientsCache::get_or_create` keys on the testnet flag but
never passes it to the constructor. The testnet=true and testnet=false
calls use two distinct cache keys, and one single assumption about the
constructor at one argument tuple `(Some api_key, Some api_secret, demo,
5000)` determines the outcome of both calls, because both miss paths
invoke the constructor with exactly those arguments. Running the two
calls in sequence therefore populates two independent cache entries, both
holding the one constructed client. -/
theorem bingx_testnet_key_only {E C : Type}
    (new : Option String → Option String → Bool → Nat → Except E C)
    (now : Nat) (ak as : String) (d : Bool)
    (s : CacheState BingxCacheKey C) (c : C)
    (hmt : ClientsCache.get now (BingxClientsCache.make_key ak as true d) s = none)
    (hmf : ClientsCache.get now (BingxClientsCache.make_key ak as false d) s = none)
    (hok : new (some ak) (some as) d 5000 = Except.ok c) :
    BingxClientsCache.make_key ak as true d ≠ BingxClientsCache.make_key ak as false d ∧
    (BingxClientsCache.get_or_create new now ak as true d s).1 = Except.ok c ∧
    (BingxClientsCache.get_or_create new now ak as false d
        (BingxClientsCache.get_or_create new now ak as true d s).2).1 = Except.ok c ∧
    mapFind (BingxClientsCache.get_or_create new now ak as false d
        (BingxClientsCache.get_or_create new now ak as true d s).2).2.map
        (BingxClientsCache.make_key ak as true d) = some (c, now + s.lifetime) ∧
    mapFind (BingxClientsCache.get_or_create new now ak as false d
        (BingxClientsCache.get_or_create new now ak as true d s).2).2.map
        (BingxClientsCache.make_key ak as false d) = some (c, now + s.lifetime) := by
  have hmt' : ClientsCache.get now ((ak, as, d, true) : BingxCacheKey) s = none := hmt
  have hmf' : ClientsCache.get now ((ak, as, d, false) : BingxCacheKey) s = none := hmf
  have h1 : BingxClientsCache.get_or_create new now ak as true d s =
      (Except.ok c, ClientsCache.add now ((ak, as, d, true) : BingxCacheKey) c s) := by
    simp [BingxClientsCache.get_or_create, BingxClientsCache.make_key, hmt', hok]
  have hne : ((ak, as, d, false) : BingxCacheKey) ≠ (ak, as, d, true) := by
    simp
  have hne' : ((ak, as, d, true) : BingxCacheKey) ≠ (ak, as, d, false) := by
    simp
  have hget2 : ClientsCache.get now ((ak, as, d, false) : BingxCacheKey)
      (ClientsCache.add now ((ak, as, d, true) : BingxCacheKey) c s) = none := by
    unfold ClientsCache.get ClientsCache.add at *
    rw [mapFind_mapInsert_ne _ _ _ _ hne]
    exact hmf'
  have h2 : BingxClientsCache.get_or_create new now ak as false d
      (ClientsCache.add now ((ak, as, d, true) : BingxCacheKey) c s) =
      (Except.ok c, ClientsCache.add now ((ak, as, d, false) : BingxCacheKey) c
        (ClientsCache.add now ((ak, as, d, true) : BingxCacheKey) c s)) := by
    simp [BingxClientsCache.get_or_create, BingxClientsCache.make_key, hget2, hok]
  refine ⟨by simp [BingxClientsCache.make_key], by rw [h1], ?_, ?_, ?_⟩
  · rw [h1]
    show (BingxClientsCache.get_or_create new now ak as false d
      (ClientsCache.add now ((ak, as, d, true) : BingxCacheKey) c s)).1 = Except.ok c
    rw [h2]
  · rw [h1]
    show mapFind (BingxClientsCache.get_or_create new now ak as false d
        (ClientsCache.add now ((ak, as, d, true) : BingxCacheKey) c s)).2.map
        ((ak, as, d, true) : BingxCacheKey) = some (c, now + s.lifetime)
    rw [h2]
    show mapFind (mapInsert
        (ClientsCache.add now ((ak, as, d, true) : BingxCacheKey) c s).map
        ((ak, as, d, false) : BingxCacheKey) (c, now + s.lifetime))
        ((ak, as, d, true) : BingxCacheKey) = some (c, now + s.lifetime)
    rw [mapFind_mapInsert_ne _ _ _ _ hne']
    exact mapFind_mapInsert_self _ _ _
  · rw [h1]
    show mapFind (BingxClientsCache.get_or_create new now ak as false d
        (ClientsCache.add now ((ak, as, d, true) : BingxCacheKey) c s)).2.map
        ((ak, as, d, false) : BingxCacheKey) = some (c, now + s.lifetime)
    rw [h2]
    exact mapFind_mapInsert_self _ _ _

/-- Claim C10 witness: an empty cache, credentials ("a", "b"), demo false,
and a constructor that succeeds with client 42 at the one argument tuple
used by both calls. -/
theorem bingx_testnet_key_only_witness :
    BingxClientsCache.make_key "a" "b" true false ≠
      BingxClientsCache.make_key "a" "b" false false ∧
    (BingxClientsCache.get_or_create
        (fun _ _ _ _ => (Except.ok 42 : Except String Nat))
        0 "a" "b" true false { map := [], lifetime := 600 }).1 = Except.ok 42 ∧
    (BingxClientsCache.get_or_create
        (fun _ _ _ _ => (Except.ok 42 : Except String Nat)) 0 "a" "b" false false
        (BingxClientsCache.get_or_create
          (fun _ _ _ _ => (Except.ok 42 : Except String Nat))
          0 "a" "b" true false { map := [], lifetime := 600 }).2).1 = Except.ok 42 ∧
    mapFind (BingxClientsCache.get_or_create
        (fun _ _ _ _ => (Except.ok 42 : Except String Nat)) 0 "a" "b" false false
        (BingxClientsCache.get_or_create
          (fun _ _ _ _ => (Except.ok 42 : Except String Nat))
          0 "a" "b" true false { map := [], lifetime := 600 }).2).2.map
        (BingxClientsCache.make_key "a" "b" true false) = some (42, 0 + 600) ∧
    mapFind (BingxClientsCache.get_or_create
        (fun _ _ _ _ => (Except.ok 42 : Except String Nat)) 0 "a" "b" false false
        (BingxClientsCache.get_or_create
          (fun _ _ _ _ => (Except.ok 42 : Except String Nat))
          0 "a" "b" true false { map := [], lifetime := 600 }).2).2.map
        (BingxClientsCache.make_key "a" "b" false false) = some (42, 0 + 600) :=
  bingx_testnet_key_only _ 0 "a" "b" false { map := [], lifetime := 600 } 42
    rfl rfl rfl
